import Mathlib

/-!
# Verification of the Defi-watcher core (`src/watcher.ts`, `src/utils/alert.ts`)

A shallow embedding of the three coordination cores of the repository:

* the per-account health-check scheduler (`checkUserHealth`, `shouldSkipUser`,
  the `activeChecks` counter, the `activeUsers` set, the `lastCheck` and
  `userHealthCache` maps);
* the multi-provider websocket pool (`activeProvider`, the `open`/`close`/`error`
  handlers installed on each provider, the per-provider Aave event subscriptions);
* the Telegram alert dispatcher (`ALERT_QUEUE`, `sending`, `processQueue`,
  `sendAlert`, the `TELEGRAM_INTERVAL_MS` timer).

The JavaScript runtime is single-threaded and cooperative: every `await` is a
suspension point and everything between two suspension points runs atomically.
`checkUserHealth` therefore splits into an atomic admission step (everything
before the `await poolContract.getUserAccountData`) and an atomic completion
step (the code after the await together with the `finally` block).  States are
driven by event traces (`run`), and reachability is "some trace from the
initial state produces this state".

JS `number` timestamps are modelled as `Int` (seconds), health factors as the
type `HF` (`+Infinity` or an exact rational — `parseHealthFactor` returns
`Infinity` on parse failure, and `formatUnits` values are exact decimals).
-/

namespace DefiWatcher
/-- A JS-number health factor: either `Infinity` (unknown / parse failure /
no-debt sentinel) or a finite value, modelled exactly as a rational. -/
inductive HF where
  | inf : HF
  | val : ℚ → HF
deriving DecidableEq

/-- The JS comparison `hf <= HF_THRESHOLD` (a finite threshold):
`Infinity <= t` is false. -/
def HF.leq : HF → ℚ → Bool
  | .inf, _ => false
  | .val q, t => decide (q ≤ t)

/-- The configuration surface of `watcher.ts` (read once at startup). -/
structure Config where
  HF_THRESHOLD : ℚ
  USER_DEBOUNCE_SECONDS : Int
  MAX_CONCURRENT_CHECKS : Int

/-- The mutable module state of `watcher.ts` relevant to the scheduler, plus
ghost fields recording externally observable history:

* `inflight` — the addresses whose `getUserAccountData` query has been issued
  and has not yet settled (ghost; in the source this is implicit in which
  promises are pending);
* `alerts` — the `(user, hf)` pairs for which the alerting decision
  `handleLiquidation` was invoked, newest first (ghost). -/
structure SchedState where
  activeChecks : Int
  activeUsers : List String
  lastCheck : String → Option Int
  userHealthCache : String → Option HF
  inflight : List String
  alerts : List (String × HF)

/-- Module-load state: counter 0, empty set, empty maps. -/
def initState : SchedState :=
  { activeChecks := 0
    activeUsers := []
    lastCheck := fun _ => none
    userHealthCache := fun _ => none
    inflight := []
    alerts := [] }

/-- JS `String.prototype.toLowerCase` restricted to the ASCII hex addresses the
watcher handles: lower-case every character. -/
def toLowerCase (s : String) : String :=
  ⟨s.data.map Char.toLower⟩

/-- `shouldSkipUser` from `watcher.ts`.  Note the JS truthiness test
`if (!last) return false`: a recorded timestamp of `0` is falsy and is treated
like "never checked". -/
def shouldSkipUser (cfg : Config) (lastCheck : String → Option Int)
    (now : Int) (user : String) : Bool :=
  match lastCheck user with
  | none => false
  | some last =>
      if last = 0 then false
      else decide (now - last < cfg.USER_DEBOUNCE_SECONDS)

/-- The admission test of `checkUserHealth`: the conjunction of the three
guards (not already in flight, not debounced, below the concurrency cap). -/
def admits (cfg : Config) (s : SchedState) (user : String) (now : Int) : Bool :=
  !(decide (user ∈ s.activeUsers)) &&
  !(shouldSkipUser cfg s.lastCheck now user) &&
  decide (s.activeChecks < cfg.MAX_CONCURRENT_CHECKS)

/-- The synchronous prefix of `checkUserHealth` (everything before the
`await poolContract.getUserAccountData(user)`): the three early returns, then
`activeChecks++`, `activeUsers.add(user)`, `lastCheck.set(user, nowSeconds())`
and the issuing of the query (ghost `inflight`). -/
def checkUserHealthStart (cfg : Config) (s : SchedState) (user : String)
    (now : Int) : SchedState :=
  if user ∈ s.activeUsers then s
  else if shouldSkipUser cfg s.lastCheck now user then s
  else if cfg.MAX_CONCURRENT_CHECKS ≤ s.activeChecks then s
  else
    { s with
      activeChecks := s.activeChecks + 1
      activeUsers := user :: s.activeUsers
      inflight := user :: s.inflight
      lastCheck := fun x => if x = user then some now else s.lastCheck x }

/-- The completion of a successful `getUserAccountData` query: the body after
the await (`hf === lastHf` early return, cache update, threshold test invoking
`handleLiquidation`) followed by the `finally` block (`activeChecks--`,
`activeUsers.delete(user)`, query settled). -/
def checkUserHealthSuccess (cfg : Config) (s : SchedState) (user : String)
    (hf : HF) : SchedState :=
  let lastHf := (s.userHealthCache user).getD HF.inf
  let s1 :=
    if hf = lastHf then s
    else
      let s2 := { s with
        userHealthCache := fun x => if x = user then some hf else s.userHealthCache x }
      if hf.leq cfg.HF_THRESHOLD then { s2 with alerts := (user, hf) :: s2.alerts }
      else s2
  { s1 with
    activeChecks := s1.activeChecks - 1
    activeUsers := s1.activeUsers.erase user
    inflight := s1.inflight.erase user }

/-- The completion of a failed query: the `catch` only logs, so only the
`finally` block runs. -/
def checkUserHealthFailure (s : SchedState) (user : String) : SchedState :=
  { s with
    activeChecks := s.activeChecks - 1
    activeUsers := s.activeUsers.erase user
    inflight := s.inflight.erase user }

/-- Scheduler events.  The three notification constructors are the three call
sites of `checkUserHealth`: `onUserEvent` (confirmed Aave events — lower-cases
the address), the pending-transaction handler and the `fullScan` loop (both
pass the decoded address through unchanged).  The two completion constructors
settle an in-flight query. -/
inductive Ev where
  | onUserEvent : String → Int → Ev
  | pendingTx : String → Int → Ev
  | sweep : String → Int → Ev
  | succeedCheck : String → HF → Ev
  | failCheck : String → Ev

/-- One atomic scheduler step.  Completions for addresses with no pending
query cannot occur in the source and are no-ops here. -/
def stepEv (cfg : Config) (s : SchedState) : Ev → SchedState
  | .onUserEvent u t => checkUserHealthStart cfg s (toLowerCase u) t
  | .pendingTx u t => checkUserHealthStart cfg s u t
  | .sweep u t => checkUserHealthStart cfg s u t
  | .succeedCheck u hf => if u ∈ s.inflight then checkUserHealthSuccess cfg s u hf else s
  | .failCheck u => if u ∈ s.inflight then checkUserHealthFailure s u else s

/-- Run a trace of scheduler events. -/
def run (cfg : Config) (s : SchedState) : List Ev → SchedState
  | [] => s
  | e :: evs => run cfg (stepEv cfg s e) evs

/-- `s'` is reachable from `s` by some trace. -/
def Reaches (cfg : Config) (s s' : SchedState) : Prop :=
  ∃ evs, run cfg s evs = s'

/-- `s` is reachable from the module-load state. -/
def Reachable (cfg : Config) (s : SchedState) : Prop :=
  Reaches cfg initState s

/-- The default configuration of `watcher.ts`: threshold 1.05, debounce 30 s,
concurrency cap 4. -/
def cfg0 : Config :=
  { HF_THRESHOLD := mkRat 105 100
    USER_DEBOUNCE_SECONDS := 30
    MAX_CONCURRENT_CHECKS := 4 }

/-- The core scheduler invariant: the ghost in-flight list coincides with the
`activeUsers` set, that set has no duplicates, the `activeChecks` counter
counts exactly its elements, and (for a non-negative cap) the counter never
exceeds `MAX_CONCURRENT_CHECKS`. -/
def SchedInv (cfg : Config) (s : SchedState) : Prop :=
  s.inflight = s.activeUsers ∧
  s.activeUsers.Nodup ∧
  s.activeChecks = (s.activeUsers.length : Int) ∧
  (0 ≤ cfg.MAX_CONCURRENT_CHECKS → s.activeChecks ≤ cfg.MAX_CONCURRENT_CHECKS)

/-- Debounce tracking: once address `A` has a recorded check time that is
positive and at least `t1`, it keeps one. -/
def LastAtLeast (A : String) (t1 : Int) (s : SchedState) : Prop :=
  ∃ t, s.lastCheck A = some t ∧ t1 ≤ t ∧ 0 < t

/-- A small concrete trace used by the scheduler witnesses: two admissions at
the default configuration, one successful completion. -/
def evs0 : List Ev :=
  [.pendingTx "a" 100, .pendingTx "b" 100, .succeedCheck "a" (.val (mkRat 98 100))]

/-- C9 as claimed: every notification path into the scheduler — confirmed
events (`onUserEvent`), the pending-transaction handler, and the full-scan
loop — case-folds the account address to lowercase before the admission
tests. -/
def claimC9 (cfg : Config) : Prop :=
  ∀ s u t,
    stepEv cfg s (.onUserEvent u t) = checkUserHealthStart cfg s (toLowerCase u) t ∧
    stepEv cfg s (.pendingTx u t) = checkUserHealthStart cfg s (toLowerCase u) t ∧
    stepEv cfg s (.sweep u t) = checkUserHealthStart cfg s (toLowerCase u) t

/-! ## The connection pool (`watcher.ts` lines 61–97, 173–206)

Providers are indexed `0, …, n-1` in the order of `PROVIDER_URLS`.  The source
keeps no explicit lifecycle state — `connState` is the ghost lifecycle implied
by the transport events that fire the registered handlers.  `subscribed` is
the set of providers on which the startup loop `providers.forEach` installed
the five Aave event subscriptions (the pending-transaction stream lives on a
separate, dedicated Alchemy client and is not part of the pool). -/

/-- Lifecycle of one websocket connection. -/
inductive ConnState where
  | connecting
  | opened
  | closed
  | errored
deriving DecidableEq

/-- Pool state: the `activeProvider` module variable, the ghost lifecycle of
each provider, and the set of providers holding Aave event subscriptions. -/
structure PoolState where
  activeProvider : Option Nat
  connState : Nat → ConnState
  subscribed : List Nat

/-- Module-load state: all providers constructed (connecting), every provider
subscribed by `providers.forEach`, and — because no `open` callback can run
before module load finishes — `activeProvider` set to `providers[0]` by the
fallback assignment at lines 95–97 (or `null` with no providers). -/
def initPool (n : Nat) : PoolState :=
  { activeProvider := if n = 0 then none else some 0
    connState := fun _ => ConnState.connecting
    subscribed := List.range n }

/-- The `ws.on("open")` handler: promote this provider only if no provider is
currently active. -/
def onOpen (s : PoolState) (i : Nat) : PoolState :=
  let s1 := { s with connState := fun j => if j = i then ConnState.opened else s.connState j }
  if s1.activeProvider = none then { s1 with activeProvider := some i } else s1

/-- The `ws.on("close")` handler: `providers.find((p) => p !== provider)` —
switch `activeProvider` to the first *other* configured provider (whatever its
lifecycle state, and whether or not the closing provider was active), or to
`null` when there is no other provider. -/
def onClose (n : Nat) (s : PoolState) (i : Nat) : PoolState :=
  let s1 := { s with connState := fun j => if j = i then ConnState.closed else s.connState j }
  match (List.range n).find? (fun p => p != i) with
  | some fb => { s1 with activeProvider := some fb }
  | none => { s1 with activeProvider := none }

/-- The `ws.on("error")` handler: log only — `activeProvider` is untouched. -/
def onError (s : PoolState) (i : Nat) : PoolState :=
  { s with connState := fun j => if j = i then ConnState.errored else s.connState j }

/-- Transport events for provider `i`. -/
inductive PEv where
  | wsOpen : Nat → PEv
  | wsClose : Nat → PEv
  | wsError : Nat → PEv

/-- One transport event step (events for unconfigured indices cannot occur). -/
def stepP (n : Nat) (s : PoolState) : PEv → PoolState
  | .wsOpen i => if i < n then onOpen s i else s
  | .wsClose i => if i < n then onClose n s i else s
  | .wsError i => if i < n then onError s i else s

/-- Run a trace of transport events. -/
def runPool (n : Nat) (s : PoolState) : List PEv → PoolState
  | [] => s
  | e :: evs => runPool n (stepP n s e) evs

/-- Pool states reachable from module load with `n` configured providers. -/
def PoolReachable (n : Nat) (s : PoolState) : Prop :=
  ∃ evs, runPool n (initPool n) evs = s

/-- C5 as claimed: whenever some connection is Open exactly one (configured)
connection is Active; the active reference is empty when all connections are
Closed/Errored; and a close signal may only promote a connection currently in
state Open. -/
def claimC5 (n : Nat) : Prop :=
  ∀ s, PoolReachable n s →
    ((∃ i, i < n ∧ s.connState i = ConnState.opened) →
       ∃ j, j < n ∧ s.activeProvider = some j) ∧
    ((∀ i, i < n → s.connState i = ConnState.closed ∨ s.connState i = ConnState.errored) →
       s.activeProvider = none) ∧
    (∀ i j, s.activeProvider = some i → (onClose n s i).activeProvider = some j →
       j = i ∨ s.connState j = ConnState.opened)

/-- The four-event trace refuting C5: open both providers, then close both. -/
def poolTrace0 : List PEv := [.wsOpen 0, .wsOpen 1, .wsClose 1, .wsClose 0]

/-- The pool invariant: the active reference indexes a configured provider,
and it is empty only when no configured provider is Open. -/
def PoolInv (n : Nat) (s : PoolState) : Prop :=
  (∀ j, s.activeProvider = some j → j < n) ∧
  (s.activeProvider = none → ∀ i, i < n → s.connState i ≠ ConnState.opened)

/-- C6 as claimed: subscriptions are held exactly via the currently active
connection (re-established on each promotion), never on all connections
simultaneously. -/
def claimC6 (n : Nat) : Prop :=
  ∀ s, PoolReachable n s → ∀ i, i < n → (i ∈ s.subscribed ↔ s.activeProvider = some i)

/-! ## The alert dispatcher (`src/utils/alert.ts`)

`sendAlert` appends to `ALERT_QUEUE` and kicks `processQueue`; `processQueue`
shifts the head, sets `sending` and starts a Telegram delivery; the attached
`.catch` logs a failure and its `.finally` clears `sending` and, when the
queue is non-empty, schedules `processQueue` again via
`setTimeout(·, TELEGRAM_INTERVAL_MS)`.  The delivery and the timer are the
suspension points; `started`, `completed`, `consoleAlerts`, `errorLog` and
`enqueued` are ghost histories, and `now` forces event times to be
non-decreasing along a trace. -/

/-- Dispatcher configuration: whether both `TELEGRAM_BOT_TOKEN` and
`TELEGRAM_CHAT_ID` were present at startup (so `bot` is non-null), and the
minimum inter-alert spacing `TELEGRAM_INTERVAL_MS`. -/
structure AlertConfig where
  configured : Bool
  TELEGRAM_INTERVAL_MS : Int

/-- Dispatcher state.  Ghost fields: `inflightSends` (deliveries started and
not yet settled), `timers` (pending `setTimeout` fire times), `started`
(messages with their delivery start time, in start order), `completed`
(messages with settle time and success flag, in settle order),
`consoleAlerts` (fallback console log when unconfigured), `errorLog` (the
messages whose delivery failed), `enqueued` (all messages ever queued). -/
structure AlertState where
  ALERT_QUEUE : List String
  sending : Bool
  inflightSends : List String
  timers : List Int
  started : List (String × Int)
  completed : List (String × Int × Bool)
  consoleAlerts : List String
  errorLog : List String
  enqueued : List String
  now : Int

/-- Module-load dispatcher state. -/
def initAlert : AlertState :=
  { ALERT_QUEUE := []
    sending := false
    inflightSends := []
    timers := []
    started := []
    completed := []
    consoleAlerts := []
    errorLog := []
    enqueued := []
    now := 0 }

/-- `processQueue` at time `t`: the triple guard
`if (!bot || sending || ALERT_QUEUE.length === 0) return`, then shift the head
and start its delivery. -/
def processQueue (cfg : AlertConfig) (s : AlertState) (t : Int) : AlertState :=
  if !cfg.configured || s.sending || s.ALERT_QUEUE.isEmpty then s
  else
    match s.ALERT_QUEUE with
    | [] => s
    | m :: rest =>
        { s with
          ALERT_QUEUE := rest
          sending := true
          inflightSends := s.inflightSends ++ [m]
          started := s.started ++ [(m, t)] }

/-- Settlement of a delivery at time `t` (`ok = false` is a rejected
`sendMessage` promise): the `.catch` logs the failure, the `.finally` clears
`sending` and — only when the queue is non-empty — schedules `processQueue`
at `t + TELEGRAM_INTERVAL_MS`. -/
def onSendSettled (cfg : AlertConfig) (s : AlertState) (t : Int) (ok : Bool) :
    AlertState :=
  match s.inflightSends with
  | [] => s
  | m :: rest =>
      let s1 := { s with
        sending := false
        inflightSends := rest
        completed := s.completed ++ [(m, t, ok)]
        errorLog := if ok then s.errorLog else s.errorLog ++ [m] }
      if s1.ALERT_QUEUE.isEmpty then s1
      else { s1 with timers := s1.timers ++ [t + cfg.TELEGRAM_INTERVAL_MS] }

/-- `sendAlert` at time `t`: with no bot configured, log to the console and
return (the queue is untouched); otherwise push the message and call
`processQueue`.  (The source prefixes an ISO timestamp to the payload; the
message is modelled as given since only identity and order matter here.) -/
def sendAlert (cfg : AlertConfig) (s : AlertState) (t : Int) (m : String) :
    AlertState :=
  if !cfg.configured then { s with consoleAlerts := s.consoleAlerts ++ [m] }
  else
    processQueue cfg
      { s with ALERT_QUEUE := s.ALERT_QUEUE ++ [m], enqueued := s.enqueued ++ [m] } t

/-- Dispatcher events: an `enqueue(message)` call, the settlement of the
in-flight delivery, and the firing of a `setTimeout` scheduled for `sched`
(which can only happen at a time `t ≥ sched`). -/
inductive AEv where
  | enqueueMsg : String → Int → AEv
  | sendSettled : Bool → Int → AEv
  | timerFired : Int → Int → AEv

/-- One dispatcher step; events that cannot occur (times moving backwards, a
timer that was never scheduled or has not yet expired) are no-ops. -/
def stepA (cfg : AlertConfig) (s : AlertState) : AEv → AlertState
  | .enqueueMsg m t => if s.now ≤ t then { sendAlert cfg s t m with now := t } else s
  | .sendSettled ok t => if s.now ≤ t then { onSendSettled cfg s t ok with now := t } else s
  | .timerFired sched t =>
      if s.now ≤ t ∧ sched ≤ t ∧ sched ∈ s.timers then
        { processQueue cfg { s with timers := s.timers.erase sched } t with now := t }
      else s

/-- Run a trace of dispatcher events. -/
def runA (cfg : AlertConfig) (s : AlertState) : List AEv → AlertState
  | [] => s
  | e :: evs => runA cfg (stepA cfg s e) evs

/-- Dispatcher states reachable from module load. -/
def AlertReachable (cfg : AlertConfig) (s : AlertState) : Prop :=
  ∃ evs, runA cfg initAlert evs = s

/-- C7 as claimed: at most one delivery in flight, strict FIFO order, and
every delivery attempt starts at least `TELEGRAM_INTERVAL_MS` after the
settlement of the previous attempt. -/
def claimC7 (cfg : AlertConfig) : Prop :=
  ∀ s, AlertReachable cfg s →
    s.inflightSends.length ≤ 1 ∧
    s.started.map Prod.fst ++ s.ALERT_QUEUE = s.enqueued ∧
    (∀ k m ts m' tc ok, s.started.get? (k + 1) = some (m, ts) →
       s.completed.get? k = some (m', tc, ok) →
       tc + cfg.TELEGRAM_INTERVAL_MS ≤ ts)

/-- Telegram configured, 1000 ms spacing. -/
def cfgA : AlertConfig := { configured := true, TELEGRAM_INTERVAL_MS := 1000 }

/-- Telegram unconfigured. -/
def cfgU : AlertConfig := { configured := false, TELEGRAM_INTERVAL_MS := 1000 }

/-- The trace refuting the spacing clause of C7: "a" starts at 0 with "b" queued
behind it; "a" settles at 5 (timer set for 1005); an enqueue of "c" at 10
kicks `processQueue`, which starts "b" immediately — 5 ms after the previous
settlement. -/
def alertTrace0 : List AEv :=
  [.enqueueMsg "a" 0, .enqueueMsg "b" 0, .sendSettled true 5, .enqueueMsg "c" 10]

/-- The dispatcher invariant behind the amended C7 statement and C8. -/
def AlertInv (cfg : AlertConfig) (s : AlertState) : Prop :=
  (s.sending = false ↔ s.inflightSends = []) ∧
  s.inflightSends.length ≤ 1 ∧
  s.started.map Prod.fst ++ s.ALERT_QUEUE = s.enqueued ∧
  s.completed.map (fun c => c.1) ++ s.inflightSends = s.started.map Prod.fst ∧
  (∀ sched ∈ s.timers, ∃ c ∈ s.completed, sched = c.2.1 + cfg.TELEGRAM_INTERVAL_MS)

/-! ## Theorems -/

/-- Case analysis on the admission step: a rejected notification is a strict
no-op, and an admitted one performs exactly the three mutations plus the
query issue. -/
lemma checkUserHealthStart_spec (cfg : Config) (s : SchedState) (user : String)
    (now : Int) :
    (admits cfg s user now = false → checkUserHealthStart cfg s user now = s) ∧
    (admits cfg s user now = true →
      user ∉ s.activeUsers ∧
      shouldSkipUser cfg s.lastCheck now user = false ∧
      s.activeChecks < cfg.MAX_CONCURRENT_CHECKS ∧
      checkUserHealthStart cfg s user now =
        { s with
          activeChecks := s.activeChecks + 1
          activeUsers := user :: s.activeUsers
          inflight := user :: s.inflight
          lastCheck := fun x => if x = user then some now else s.lastCheck x }) := by
  unfold admits checkUserHealthStart
  by_cases h1 : user ∈ s.activeUsers <;>
    by_cases h2 : shouldSkipUser cfg s.lastCheck now user = true <;>
      by_cases h3 : s.activeChecks < cfg.MAX_CONCURRENT_CHECKS <;>
        simp [h1, h2, h3, not_lt.mp]

/-- The `finally` block of a successful completion acts on the post-body state,
whose counter/set/in-flight fields are untouched by the body. -/
lemma checkUserHealthSuccess_proj (cfg : Config) (s : SchedState) (user : String)
    (hf : HF) :
    (checkUserHealthSuccess cfg s user hf).activeChecks = s.activeChecks - 1 ∧
    (checkUserHealthSuccess cfg s user hf).activeUsers = s.activeUsers.erase user ∧
    (checkUserHealthSuccess cfg s user hf).inflight = s.inflight.erase user ∧
    (checkUserHealthSuccess cfg s user hf).lastCheck = s.lastCheck := by
  unfold checkUserHealthSuccess
  dsimp only
  split
  · exact ⟨rfl, rfl, rfl, rfl⟩
  · split <;> exact ⟨rfl, rfl, rfl, rfl⟩

/-- `shouldSkipUser` when the map holds a recorded time. -/
lemma shouldSkipUser_some (cfg : Config) (lastCheck : String → Option Int)
    (now : Int) (user : String) (t : Int) (h : lastCheck user = some t) :
    shouldSkipUser cfg lastCheck now user =
      if t = 0 then false else decide (now - t < cfg.USER_DEBOUNCE_SECONDS) := by
  unfold shouldSkipUser
  rw [h]

lemma schedInv_init (cfg : Config) : SchedInv cfg initState := by
  refine ⟨rfl, List.nodup_nil, rfl, fun h => h⟩

lemma schedInv_start (cfg : Config) (s : SchedState) (user : String) (now : Int)
    (h : SchedInv cfg s) : SchedInv cfg (checkUserHealthStart cfg s user now) := by
  obtain ⟨hfl, hnd, hlen, hcap⟩ := h
  by_cases ha : admits cfg s user now = true
  · obtain ⟨hmem, -, hlt, heq⟩ := (checkUserHealthStart_spec cfg s user now).2 ha
    rw [heq]
    refine ⟨by rw [hfl], List.nodup_cons.mpr ⟨hmem, hnd⟩, ?_, fun _ => ?_⟩
    · dsimp only
      rw [List.length_cons]
      omega
    · dsimp only
      omega
  · rw [(checkUserHealthStart_spec cfg s user now).1 (by simpa using ha)]
    exact ⟨hfl, hnd, hlen, hcap⟩

lemma schedInv_finally (cfg : Config) (s : SchedState) (user : String)
    (hin : user ∈ s.inflight) (h : SchedInv cfg s) :
    s.activeChecks - 1 = ((s.activeUsers.erase user).length : Int) ∧
    (s.activeUsers.erase user).Nodup ∧
    s.inflight.erase user = s.activeUsers.erase user := by
  obtain ⟨hfl, hnd, hlen, -⟩ := h
  have hmem : user ∈ s.activeUsers := hfl ▸ hin
  have hlenerase : (s.activeUsers.erase user).length = s.activeUsers.length - 1 :=
    List.length_erase_of_mem hmem
  have hpos : 0 < s.activeUsers.length := List.length_pos_of_mem hmem
  refine ⟨?_, hnd.erase user, by rw [hfl]⟩
  rw [hlenerase, hlen]
  omega

lemma schedInv_step (cfg : Config) (s : SchedState) (e : Ev)
    (h : SchedInv cfg s) : SchedInv cfg (stepEv cfg s e) := by
  obtain ⟨hfl, hnd, hlen, hcap⟩ := h
  cases e with
  | onUserEvent u t => exact schedInv_start cfg s (toLowerCase u) t ⟨hfl, hnd, hlen, hcap⟩
  | pendingTx u t => exact schedInv_start cfg s u t ⟨hfl, hnd, hlen, hcap⟩
  | sweep u t => exact schedInv_start cfg s u t ⟨hfl, hnd, hlen, hcap⟩
  | succeedCheck u hf =>
      dsimp [stepEv]
      split
      · next hin =>
          obtain ⟨h1, h2, h3, -⟩ := checkUserHealthSuccess_proj cfg s u hf
          obtain ⟨g1, g2, g3⟩ := schedInv_finally cfg s u hin ⟨hfl, hnd, hlen, hcap⟩
          refine ⟨by rw [h3, h2, g3], by rw [h2]; exact g2, by rw [h1, h2, g1], fun hc => ?_⟩
          rw [h1]
          have := hcap hc
          omega
      · exact ⟨hfl, hnd, hlen, hcap⟩
  | failCheck u =>
      dsimp [stepEv]
      split
      · next hin =>
          obtain ⟨g1, g2, g3⟩ := schedInv_finally cfg s u hin ⟨hfl, hnd, hlen, hcap⟩
          refine ⟨g3, g2, g1, fun hc => ?_⟩
          dsimp [checkUserHealthFailure]
          have := hcap hc
          omega
      · exact ⟨hfl, hnd, hlen, hcap⟩

lemma schedInv_run (cfg : Config) (s : SchedState) (evs : List Ev)
    (h : SchedInv cfg s) : SchedInv cfg (run cfg s evs) := by
  induction evs generalizing s with
  | nil => exact h
  | cons e evs ih => exact ih _ (schedInv_step cfg s e h)

lemma schedInv_reachable (cfg : Config) (s : SchedState)
    (h : Reachable cfg s) : SchedInv cfg s := by
  obtain ⟨evs, rfl⟩ := h
  exact schedInv_run cfg initState evs (schedInv_init cfg)

lemma lastAtLeast_start (cfg : Config) (s : SchedState) (u : String) (now : Int)
    (A : String) (t1 : Int) (hw : 0 ≤ cfg.USER_DEBOUNCE_SECONDS)
    (h : LastAtLeast A t1 s) :
    LastAtLeast A t1 (checkUserHealthStart cfg s u now) := by
  obtain ⟨t, hA, ht1, ht0⟩ := h
  by_cases ha : admits cfg s u now = true
  · obtain ⟨-, hskip, -, heq⟩ := (checkUserHealthStart_spec cfg s u now).2 ha
    rw [heq]
    by_cases hAu : A = u
    · subst hAu
      rw [shouldSkipUser_some cfg s.lastCheck now A t hA, if_neg (by omega)] at hskip
      have hnow := of_decide_eq_false hskip
      exact ⟨now, by simp, by omega, by omega⟩
    · exact ⟨t, by simpa [hAu] using hA, ht1, ht0⟩
  · rw [(checkUserHealthStart_spec cfg s u now).1 (by simpa using ha)]
    exact ⟨t, hA, ht1, ht0⟩

lemma lastAtLeast_step (cfg : Config) (s : SchedState) (e : Ev)
    (A : String) (t1 : Int) (hw : 0 ≤ cfg.USER_DEBOUNCE_SECONDS)
    (h : LastAtLeast A t1 s) : LastAtLeast A t1 (stepEv cfg s e) := by
  obtain ⟨t, hA, ht1, ht0⟩ := h
  cases e with
  | onUserEvent u tt => exact lastAtLeast_start cfg s (toLowerCase u) tt A t1 hw ⟨t, hA, ht1, ht0⟩
  | pendingTx u tt => exact lastAtLeast_start cfg s u tt A t1 hw ⟨t, hA, ht1, ht0⟩
  | sweep u tt => exact lastAtLeast_start cfg s u tt A t1 hw ⟨t, hA, ht1, ht0⟩
  | succeedCheck u hf =>
      dsimp [stepEv]
      split
      · obtain ⟨-, -, -, h4⟩ := checkUserHealthSuccess_proj cfg s u hf
        exact ⟨t, by rw [h4]; exact hA, ht1, ht0⟩
      · exact ⟨t, hA, ht1, ht0⟩
  | failCheck u =>
      dsimp [stepEv]
      split
      · exact ⟨t, hA, ht1, ht0⟩
      · exact ⟨t, hA, ht1, ht0⟩

lemma lastAtLeast_run (cfg : Config) (s : SchedState) (evs : List Ev)
    (A : String) (t1 : Int) (hw : 0 ≤ cfg.USER_DEBOUNCE_SECONDS)
    (h : LastAtLeast A t1 s) : LastAtLeast A t1 (run cfg s evs) := by
  induction evs generalizing s with
  | nil => exact h
  | cons e evs ih => exact ih _ (lastAtLeast_step cfg s e A t1 hw h)

lemma lastAtLeast_rejects (cfg : Config) (s : SchedState) (A : String)
    (t1 t2 : Int) (h : LastAtLeast A t1 s) (hclose : t2 - t1 < cfg.USER_DEBOUNCE_SECONDS) :
    shouldSkipUser cfg s.lastCheck t2 A = true := by
  obtain ⟨t, hA, ht1, ht0⟩ := h
  rw [shouldSkipUser_some cfg s.lastCheck t2 A t hA, if_neg (by omega)]
  exact decide_eq_true (by omega)

/-- C1: on a successful health-query completion for `user` with parsed metric
`hf`, the alerting decision (`handleLiquidation`) fires iff `hf` is at most
the configured threshold and differs from the previously recorded metric for
that address (the record defaulting to `+Infinity` when the address was never
recorded); when the metric equals the previous record no alert is emitted even
below the threshold. -/
theorem C1_alert_iff_below_threshold_and_changed (cfg : Config) (s : SchedState)
    (user : String) (hf : HF) :
    ((checkUserHealthSuccess cfg s user hf).alerts ≠ s.alerts ↔
      hf.leq cfg.HF_THRESHOLD = true ∧ hf ≠ (s.userHealthCache user).getD HF.inf) ∧
    (checkUserHealthSuccess cfg s user hf).alerts =
      (if hf ≠ (s.userHealthCache user).getD HF.inf ∧ hf.leq cfg.HF_THRESHOLD = true
       then (user, hf) :: s.alerts else s.alerts) := by
  unfold checkUserHealthSuccess
  dsimp only
  by_cases h1 : hf = (s.userHealthCache user).getD HF.inf
  · simp [h1]
  · by_cases h2 : HF.leq hf cfg.HF_THRESHOLD = true
    · simp [h1, h2]
    · simp [h1, h2]

/-- C2: in every reachable scheduler state (for a non-negative configured cap)
the global in-flight counter never exceeds `MAX_CONCURRENT_CHECKS`; a
notification arriving while the counter is at (or above) the cap performs no
query and changes no state; a rejected notification is always a strict no-op;
and the counter grows (by exactly one) only when the admission test passes. -/
theorem C2_concurrency_cap (cfg : Config) (s : SchedState)
    (h : Reachable cfg s) (hcap : 0 ≤ cfg.MAX_CONCURRENT_CHECKS) :
    s.activeChecks ≤ cfg.MAX_CONCURRENT_CHECKS ∧
    (∀ u now, cfg.MAX_CONCURRENT_CHECKS ≤ s.activeChecks →
       checkUserHealthStart cfg s u now = s) ∧
    (∀ u now, admits cfg s u now = false → checkUserHealthStart cfg s u now = s) ∧
    (∀ u now, admits cfg s u now = true →
       (checkUserHealthStart cfg s u now).activeChecks = s.activeChecks + 1) := by
  refine ⟨(schedInv_reachable cfg s h).2.2.2 hcap, ?_, ?_, ?_⟩
  · intro u now hge
    unfold checkUserHealthStart
    by_cases h1 : u ∈ s.activeUsers
    · simp [h1]
    · by_cases h2 : shouldSkipUser cfg s.lastCheck now u = true
      · simp [h1, h2]
      · simp [h1, h2, hge]
  · intro u now ha
    exact (checkUserHealthStart_spec cfg s u now).1 ha
  · intro u now ha
    obtain ⟨-, -, -, heq⟩ := (checkUserHealthStart_spec cfg s u now).2 ha
    rw [heq]

/-- Witness for C2: the default configuration, a trace with two admissions and
one completion. -/
theorem C2_concurrency_cap_witness :
    (run cfg0 initState evs0).activeChecks ≤ cfg0.MAX_CONCURRENT_CHECKS :=
  (C2_concurrency_cap cfg0 (run cfg0 initState evs0) ⟨evs0, rfl⟩ (by decide)).1

/-- C3: if a `notify(A)` call at a (positive, epoch-seconds) time `t1` passes
the admission test, the admission records `t1` in `lastCheck`, and in every
state reachable after that admission a `notify(A)` arriving at any time `t2`
less than `USER_DEBOUNCE_SECONDS` after `t1` fails the admission test and is a
strict no-op — so the two calls issue at most one health query. -/
theorem C3_debounce (cfg : Config) (s0 s : SchedState) (A : String) (t1 t2 : Int)
    (hw : 0 ≤ cfg.USER_DEBOUNCE_SECONDS) (ht1 : 0 < t1)
    (hadm : admits cfg s0 A t1 = true)
    (hre : Reaches cfg (checkUserHealthStart cfg s0 A t1) s)
    (hclose : t2 - t1 < cfg.USER_DEBOUNCE_SECONDS) :
    admits cfg s A t2 = false ∧ checkUserHealthStart cfg s A t2 = s := by
  have hstart : LastAtLeast A t1 (checkUserHealthStart cfg s0 A t1) := by
    obtain ⟨-, -, -, heq⟩ := (checkUserHealthStart_spec cfg s0 A t1).2 hadm
    rw [heq]
    exact ⟨t1, by simp, le_refl t1, ht1⟩
  obtain ⟨evs, rfl⟩ := hre
  have hlast := lastAtLeast_run cfg _ evs A t1 hw hstart
  have hskip := lastAtLeast_rejects cfg _ A t1 t2 hlast hclose
  have hfalse : admits cfg (run cfg (checkUserHealthStart cfg s0 A t1) evs) A t2 = false := by
    unfold admits
    rw [hskip]
    simp
  exact ⟨hfalse, (checkUserHealthStart_spec cfg _ A t2).1 hfalse⟩

/-- Witness for C3: address admitted at `t1 = 100`, re-notified at
`t2 = 110 < 100 + 30`. -/
theorem C3_debounce_witness :
    admits cfg0 (checkUserHealthStart cfg0 initState "a" 100) "a" 110 = false :=
  (C3_debounce cfg0 initState (checkUserHealthStart cfg0 initState "a" 100)
    "a" 100 110 (by decide) (by decide) (by decide) ⟨[], rfl⟩ (by decide)).1

/-- C4: in every reachable state the per-account in-flight flag (membership in
`activeUsers`) holds exactly for addresses with a pending query, no address
has two queries in flight, a second notification for a flagged address is
dropped as a strict no-op (not queued), and both the success and the error
completion clear the flag. -/
theorem C4_single_flight_per_address (cfg : Config) (s : SchedState)
    (h : Reachable cfg s) :
    (∀ u, u ∈ s.inflight ↔ u ∈ s.activeUsers) ∧
    (∀ u, s.inflight.count u ≤ 1) ∧
    (∀ u now, u ∈ s.activeUsers → checkUserHealthStart cfg s u now = s) ∧
    (∀ u hf, u ∉ (checkUserHealthSuccess cfg s u hf).inflight ∧
             u ∉ (checkUserHealthFailure s u).inflight) := by
  obtain ⟨hfl, hnd, -, -⟩ := schedInv_reachable cfg s h
  have hndin : s.inflight.Nodup := hfl ▸ hnd
  refine ⟨fun u => by rw [hfl], fun u => List.nodup_iff_count_le_one.mp hndin u, ?_, ?_⟩
  · intro u now hmem
    unfold checkUserHealthStart
    simp [hmem]
  · intro u hf
    obtain ⟨-, -, h3, -⟩ := checkUserHealthSuccess_proj cfg s u hf
    constructor
    · rw [h3]
      intro hc
      exact ((hndin.mem_erase_iff).mp hc).1 rfl
    · intro hc
      exact ((hndin.mem_erase_iff).mp hc).1 rfl

/-- Witness for C4 at a concrete one-admission trace. -/
theorem C4_single_flight_per_address_witness :
    "a" ∈ (run cfg0 initState [Ev.pendingTx "a" 100]).inflight ↔
    "a" ∈ (run cfg0 initState [Ev.pendingTx "a" 100]).activeUsers :=
  (C4_single_flight_per_address cfg0 _ ⟨[Ev.pendingTx "a" 100], rfl⟩).1 "a"

/-- C10: in every reachable state the global counter equals the number of
distinct addresses currently flagged in flight (counter and flag move in the
same synchronous step; the ghost in-flight list coincides with the flag set),
so a non-negative concurrency cap also bounds the size of the in-flight set. -/
theorem C10_counter_matches_inflight_set (cfg : Config) (s : SchedState)
    (h : Reachable cfg s) :
    s.activeChecks = (s.activeUsers.length : Int) ∧
    s.activeUsers.Nodup ∧
    s.inflight = s.activeUsers ∧
    (0 ≤ cfg.MAX_CONCURRENT_CHECKS →
      (s.activeUsers.length : Int) ≤ cfg.MAX_CONCURRENT_CHECKS) := by
  obtain ⟨h1, h2, h3, h4⟩ := schedInv_reachable cfg s h
  exact ⟨h3, h2, h1, fun hc => h3 ▸ h4 hc⟩

/-- Witness for C10 at a concrete trace. -/
theorem C10_counter_matches_inflight_set_witness :
    (run cfg0 initState evs0).activeChecks =
      ((run cfg0 initState evs0).activeUsers.length : Int) :=
  (C10_counter_matches_inflight_set cfg0 (run cfg0 initState evs0) ⟨evs0, rfl⟩).1

/-- C9 is false: the pending-transaction path admits the raw (checksummed)
address `"0xA"`, not its lower-cased form. -/
theorem C9_counterexample : ¬ claimC9 cfg0 := by
  intro h
  have h2 := (h initState "0xA" 100).2.1
  have husers : (stepEv cfg0 initState (.pendingTx "0xA" 100)).activeUsers =
      (checkUserHealthStart cfg0 initState (toLowerCase "0xA") 100).activeUsers := by
    rw [h2]
  exact absurd husers (by decide)

/-- C9 amended: only the confirmed-event ingestion path (`onUserEvent`)
lower-cases the address before the in-flight/debounce/cap admission tests; the
pending-transaction handler and the full-scan loop pass the address through
unchanged.  Consequently two case variants of one account are admitted as two
distinct addresses on the pending path, while the event path identifies them
(the second is dropped by the in-flight flag). -/
theorem C9_amended_only_event_path_casefolds (cfg : Config) :
    (∀ s u t, stepEv cfg s (.onUserEvent u t) = checkUserHealthStart cfg s (toLowerCase u) t) ∧
    (∀ s u t, stepEv cfg s (.pendingTx u t) = checkUserHealthStart cfg s u t) ∧
    (∀ s u t, stepEv cfg s (.sweep u t) = checkUserHealthStart cfg s u t) ∧
    (run cfg0 initState [.pendingTx "0xA" 100, .pendingTx "0xa" 100]).activeUsers
      = ["0xa", "0xA"] ∧
    (run cfg0 initState [.onUserEvent "0xA" 100, .onUserEvent "0xa" 100]).activeUsers
      = ["0xa"] :=
  ⟨fun _ _ _ => rfl, fun _ _ _ => rfl, fun _ _ _ => rfl, by decide, by decide⟩

/-- C5 is false for two providers: after both providers open and then both
close, every connection is Closed yet `activeProvider` is still `some 1` —
the close handler promoted a closed connection. -/
theorem C5_counterexample : ¬ claimC5 2 := by
  intro h
  have h2 := (h (runPool 2 (initPool 2) poolTrace0) ⟨poolTrace0, rfl⟩).2.1
  have hall : ∀ i, i < 2 →
      (runPool 2 (initPool 2) poolTrace0).connState i = ConnState.closed ∨
      (runPool 2 (initPool 2) poolTrace0).connState i = ConnState.errored := by
    intro i hi
    interval_cases i
    · left; decide
    · left; decide
  exact absurd (h2 hall) (by decide)

lemma poolInv_init (n : Nat) : PoolInv n (initPool n) := by
  unfold initPool PoolInv
  by_cases hn : n = 0
  · subst hn
    refine ⟨fun j hj => ?_, fun _ i hi => ?_⟩ <;> simp_all
  · refine ⟨fun j hj => ?_, fun hc => ?_⟩
    · rw [if_neg hn] at hj
      injection hj with hj
      omega
    · rw [if_neg hn] at hc
      exact absurd hc (by simp)

lemma poolInv_onOpen (n : Nat) (s : PoolState) (i : Nat) (hi : i < n)
    (h : PoolInv n s) : PoolInv n (onOpen s i) := by
  obtain ⟨h1, h2⟩ := h
  unfold onOpen
  dsimp only
  split
  · exact ⟨fun j hj => by injection hj with hj; omega, fun hc => by simp at hc⟩
  · next hne => exact ⟨fun j hj => h1 j hj, fun hc => absurd hc hne⟩

lemma poolInv_onClose (n : Nat) (s : PoolState) (i : Nat) (hi : i < n)
    (_h : PoolInv n s) : PoolInv n (onClose n s i) := by
  unfold onClose
  dsimp only
  cases hfb : (List.range n).find? (fun p => p != i) with
  | some fb =>
      refine ⟨fun j hj => ?_, fun hc => by simp at hc⟩
      injection hj with hj
      subst hj
      exact List.mem_range.mp (List.mem_of_find?_eq_some hfb)
  | none =>
      refine ⟨fun j hj => by simp at hj, fun _ i' hi' => ?_⟩
      have hall := List.find?_eq_none.mp hfb
      have hii : i' = i := by
        have := hall i' (List.mem_range.mpr hi')
        simpa using this
      subst hii
      simp

lemma poolInv_onError (n : Nat) (s : PoolState) (i : Nat)
    (h : PoolInv n s) : PoolInv n (onError s i) := by
  obtain ⟨h1, h2⟩ := h
  refine ⟨h1, fun hc i' hi' => ?_⟩
  have hprev := h2 hc i' hi'
  dsimp [onError]
  split
  · simp
  · exact hprev

lemma poolInv_step (n : Nat) (s : PoolState) (e : PEv)
    (h : PoolInv n s) : PoolInv n (stepP n s e) := by
  cases e with
  | wsOpen i =>
      dsimp [stepP]
      split
      · next hi => exact poolInv_onOpen n s i hi h
      · exact h
  | wsClose i =>
      dsimp [stepP]
      split
      · next hi => exact poolInv_onClose n s i hi h
      · exact h
  | wsError i =>
      dsimp [stepP]
      split
      · next hi => exact poolInv_onError n s i h
      · exact h

lemma poolInv_run (n : Nat) (s : PoolState) (evs : List PEv)
    (h : PoolInv n s) : PoolInv n (runPool n s evs) := by
  induction evs generalizing s with
  | nil => exact h
  | cons e evs ih => exact ih _ (poolInv_step n s e h)

lemma poolInv_reachable (n : Nat) (s : PoolState)
    (h : PoolReachable n s) : PoolInv n s := by
  obtain ⟨evs, rfl⟩ := h
  exact poolInv_run n (initPool n) evs (poolInv_init n)

/-- C5 amended: whenever some connection is Open, the (single) active
reference does point at a configured provider; but an error signal never
changes the active reference, and a close signal for *any* provider sets it
to the first other configured provider regardless of the lifecycle state of
that provider (or empties it when no other provider is configured) — so a
non-Open, even Closed, connection may hold the Active role. -/
theorem C5_amended_failover (n : Nat) (s : PoolState) (h : PoolReachable n s) :
    ((∃ i, i < n ∧ s.connState i = ConnState.opened) →
       ∃ j, j < n ∧ s.activeProvider = some j) ∧
    (∀ i, (onError s i).activeProvider = s.activeProvider) ∧
    (∀ i, (onClose n s i).activeProvider = (List.range n).find? (fun p => p != i)) := by
  obtain ⟨h1, h2⟩ := poolInv_reachable n s h
  refine ⟨?_, fun i => rfl, fun i => ?_⟩
  · rintro ⟨i, hi, hop⟩
    cases hact : s.activeProvider with
    | none => exact absurd hop (h2 hact i hi)
    | some j => exact ⟨j, h1 j hact, rfl⟩
  · unfold onClose
    cases hfb : (List.range n).find? (fun p => p != i) <;> simp [hfb]

/-- Witness for the amended C5 theorem at a concrete two-provider trace. -/
theorem C5_amended_failover_witness :
    (onError (runPool 2 (initPool 2) [PEv.wsOpen 0]) 0).activeProvider =
      (runPool 2 (initPool 2) [PEv.wsOpen 0]).activeProvider :=
  (C5_amended_failover 2 (runPool 2 (initPool 2) [PEv.wsOpen 0])
    ⟨[PEv.wsOpen 0], rfl⟩).2.1 0

/-- C6 is false for two providers: already at module load, both providers hold
the Aave event subscriptions while only provider 0 is active. -/
theorem C6_counterexample : ¬ claimC6 2 := by
  intro h
  have h1 := (h (initPool 2) ⟨[], rfl⟩ 1 (by omega)).mp (by decide)
  exact absurd h1 (by decide)

lemma subscribed_step (n : Nat) (s : PoolState) (e : PEv) :
    (stepP n s e).subscribed = s.subscribed := by
  cases e with
  | wsOpen i =>
      dsimp [stepP, onOpen]
      split
      · split <;> rfl
      · rfl
  | wsClose i =>
      dsimp [stepP]
      split
      · unfold onClose
        cases hfb : (List.range n).find? (fun p => p != i) <;> simp [hfb]
      · rfl
  | wsError i =>
      dsimp [stepP, onError]
      split <;> rfl

lemma subscribed_run (n : Nat) (s : PoolState) (evs : List PEv) :
    (runPool n s evs).subscribed = s.subscribed := by
  induction evs generalizing s with
  | nil => rfl
  | cons e evs ih => rw [runPool, ih, subscribed_step]

/-- C6 amended: the five Aave event subscriptions are installed once at
startup on *every* configured provider simultaneously, and no transport event
— in particular no promotion of a new active provider — ever changes the
subscription set; nothing is re-established on failover. -/
theorem C6_amended_subscriptions_static (n : Nat) (s : PoolState)
    (h : PoolReachable n s) :
    s.subscribed = List.range n ∧
    (∀ i, (onOpen s i).subscribed = s.subscribed ∧
          (onClose n s i).subscribed = s.subscribed ∧
          (onError s i).subscribed = s.subscribed) := by
  constructor
  · obtain ⟨evs, rfl⟩ := h
    rw [subscribed_run]
    rfl
  · intro i
    refine ⟨?_, ?_, rfl⟩
    · unfold onOpen
      dsimp only
      split <;> rfl
    · unfold onClose
      cases hfb : (List.range n).find? (fun p => p != i) <;> simp [hfb]

/-- Witness for the amended C6 theorem: after one open/close cycle both
providers still hold their subscriptions. -/
theorem C6_amended_subscriptions_static_witness :
    (runPool 2 (initPool 2) [PEv.wsOpen 0, PEv.wsClose 0]).subscribed = List.range 2 :=
  (C6_amended_subscriptions_static 2 _ ⟨[PEv.wsOpen 0, PEv.wsClose 0], rfl⟩).1

/-- C7 is false: an `enqueue` arriving after a settlement but before the
spacing timer fires starts the next delivery with a gap (here 5 ms) smaller
than `TELEGRAM_INTERVAL_MS`. -/
theorem C7_counterexample : ¬ claimC7 cfgA := by
  intro h
  have h3 := (h (runA cfgA initAlert alertTrace0) ⟨alertTrace0, rfl⟩).2.2
  have hle := h3 0 "b" 10 "a" 5 true (by decide) (by decide)
  exact absurd hle (by decide)

lemma alertInv_init (cfg : AlertConfig) : AlertInv cfg initAlert := by
  refine ⟨by simp [initAlert], by simp [initAlert], rfl, rfl, by simp [initAlert]⟩

lemma alertInv_processQueue (cfg : AlertConfig) (s : AlertState) (t : Int)
    (h : AlertInv cfg s) : AlertInv cfg (processQueue cfg s t) := by
  obtain ⟨h1, h2, h3, h4, h5⟩ := h
  unfold processQueue
  split
  · exact ⟨h1, h2, h3, h4, h5⟩
  · next hguard =>
      have hsend : s.sending = false := by
        rcases Bool.eq_false_or_eq_true s.sending with hs | hs
        · exact absurd (by simp [hs]) hguard
        · exact hs
      have hinfl : s.inflightSends = [] := h1.mp hsend
      cases hq : s.ALERT_QUEUE with
      | nil => exact ⟨h1, h2, h3, h4, h5⟩
      | cons m rest =>
          refine ⟨by simp [hinfl], by simp [hinfl], ?_, ?_, h5⟩
          · dsimp only
            rw [List.map_append]
            rw [hq] at h3
            simpa using h3
          · dsimp only
            rw [List.map_append, hinfl]
            rw [hinfl, List.append_nil] at h4
            simp [h4]

lemma alertInv_onSendSettled (cfg : AlertConfig) (s : AlertState) (t : Int)
    (ok : Bool) (h : AlertInv cfg s) : AlertInv cfg (onSendSettled cfg s t ok) := by
  obtain ⟨h1, h2, h3, h4, h5⟩ := h
  unfold onSendSettled
  cases hin : s.inflightSends with
  | nil => exact ⟨h1, h2, h3, h4, h5⟩
  | cons m rest =>
      have hrest : rest = [] := by
        rw [hin] at h2
        simpa using h2
      subst hrest
      have hcore :
          (s.completed ++ [(m, t, ok)]).map (fun c => c.1) ++ ([] : List String) =
            s.started.map Prod.fst := by
        rw [hin] at h4
        rw [List.map_append]
        simpa using h4
      have htimers : ∀ sched ∈ s.timers,
          ∃ c ∈ s.completed ++ [(m, t, ok)], sched = c.2.1 + cfg.TELEGRAM_INTERVAL_MS := by
        intro sched hs
        obtain ⟨c, hc, hceq⟩ := h5 sched hs
        exact ⟨c, List.mem_append_left _ hc, hceq⟩
      dsimp only
      split
      · exact ⟨by simp, by simp, h3, hcore, htimers⟩
      · refine ⟨by simp, by simp, h3, hcore, ?_⟩
        intro sched hs
        rw [List.mem_append] at hs
        cases hs with
        | inl hs => exact htimers sched hs
        | inr hs =>
            refine ⟨(m, t, ok), List.mem_append_right _ (by simp), ?_⟩
            simpa using hs

lemma alertInv_sendAlert (cfg : AlertConfig) (s : AlertState) (t : Int)
    (m : String) (h : AlertInv cfg s) : AlertInv cfg (sendAlert cfg s t m) := by
  obtain ⟨h1, h2, h3, h4, h5⟩ := h
  unfold sendAlert
  split
  · exact ⟨h1, h2, h3, h4, h5⟩
  · apply alertInv_processQueue
    refine ⟨h1, h2, ?_, h4, h5⟩
    dsimp only
    rw [← List.append_assoc, h3]

lemma alertInv_step (cfg : AlertConfig) (s : AlertState) (e : AEv)
    (h : AlertInv cfg s) : AlertInv cfg (stepA cfg s e) := by
  cases e with
  | enqueueMsg m t =>
      dsimp [stepA]
      split
      · exact alertInv_sendAlert cfg s t m h
      · exact h
  | sendSettled ok t =>
      dsimp [stepA]
      split
      · exact alertInv_onSendSettled cfg s t ok h
      · exact h
  | timerFired sched t =>
      dsimp [stepA]
      split
      · apply alertInv_processQueue
        obtain ⟨h1, h2, h3, h4, h5⟩ := h
        refine ⟨h1, h2, h3, h4, ?_⟩
        intro sc hsc
        exact h5 sc (List.mem_of_mem_erase hsc)
      · exact h

lemma alertInv_run (cfg : AlertConfig) (s : AlertState) (evs : List AEv)
    (h : AlertInv cfg s) : AlertInv cfg (runA cfg s evs) := by
  induction evs generalizing s with
  | nil => exact h
  | cons e evs ih => exact ih _ (alertInv_step cfg s e h)

lemma alertInv_reachable (cfg : AlertConfig) (s : AlertState)
    (h : AlertReachable cfg s) : AlertInv cfg s := by
  obtain ⟨evs, rfl⟩ := h
  exact alertInv_run cfg initAlert evs (alertInv_init cfg)

/-- C7 amended: at most one delivery is in flight (`sending` holds exactly
while one is) and delivery order is strictly FIFO (started messages followed
by the queue reproduce the enqueue order, and settlement order matches start
order).  The minimum spacing, however, is guaranteed only for timer-driven
starts: every pending timer is scheduled exactly `TELEGRAM_INTERVAL_MS` after
some settlement and cannot fire earlier; an `enqueue` arriving after a
settlement (whether or not the queue had drained empty) starts the next
delivery immediately, with no minimum gap. -/
theorem C7_amended_fifo_single_flight (cfg : AlertConfig) (s : AlertState)
    (h : AlertReachable cfg s) :
    (s.sending = false ↔ s.inflightSends = []) ∧
    s.inflightSends.length ≤ 1 ∧
    s.started.map Prod.fst ++ s.ALERT_QUEUE = s.enqueued ∧
    s.completed.map (fun c => c.1) ++ s.inflightSends = s.started.map Prod.fst ∧
    (∀ sched ∈ s.timers, ∃ c ∈ s.completed, sched = c.2.1 + cfg.TELEGRAM_INTERVAL_MS) ∧
    (∀ sched t, ¬ (s.now ≤ t ∧ sched ≤ t ∧ sched ∈ s.timers) →
       stepA cfg s (.timerFired sched t) = s) := by
  obtain ⟨h1, h2, h3, h4, h5⟩ := alertInv_reachable cfg s h
  refine ⟨h1, h2, h3, h4, h5, ?_⟩
  intro sched t hno
  dsimp [stepA]
  rw [if_neg hno]

/-- Witness for the amended C7 theorem: FIFO bookkeeping on the concrete
counterexample trace. -/
theorem C7_amended_fifo_single_flight_witness :
    (runA cfgA initAlert alertTrace0).started.map Prod.fst ++
      (runA cfgA initAlert alertTrace0).ALERT_QUEUE =
      (runA cfgA initAlert alertTrace0).enqueued :=
  (C7_amended_fifo_single_flight cfgA (runA cfgA initAlert alertTrace0)
    ⟨alertTrace0, rfl⟩).2.2.1

/-- With no bot configured, `processQueue` is a strict no-op. -/
lemma processQueue_unconfigured (cfg : AlertConfig) (hc : cfg.configured = false)
    (s : AlertState) (t : Int) : processQueue cfg s t = s := by
  unfold processQueue
  rw [hc]
  simp

lemma onSendSettled_queue (cfg : AlertConfig) (s : AlertState) (t : Int)
    (ok : Bool) : (onSendSettled cfg s t ok).ALERT_QUEUE = s.ALERT_QUEUE := by
  unfold onSendSettled
  cases hin : s.inflightSends with
  | nil => rfl
  | cons m rest =>
      dsimp only
      split <;> rfl

/-- With no bot configured, the queue stays empty along every trace. -/
lemma unconfigured_queue_empty (cfg : AlertConfig) (hc : cfg.configured = false)
    (s : AlertState) (evs : List AEv) (hq : s.ALERT_QUEUE = []) :
    (runA cfg s evs).ALERT_QUEUE = [] := by
  induction evs generalizing s with
  | nil => exact hq
  | cons e evs ih =>
      refine ih _ ?_
      cases e with
      | enqueueMsg m t =>
          dsimp [stepA]
          split
          · unfold sendAlert
            rw [hc]
            simp [hq]
          · exact hq
      | sendSettled ok t =>
          dsimp [stepA]
          split
          · rw [show ({ onSendSettled cfg s t ok with now := t } : AlertState).ALERT_QUEUE
                = (onSendSettled cfg s t ok).ALERT_QUEUE from rfl, onSendSettled_queue]
            exact hq
          · exact hq
      | timerFired sched t =>
          dsimp [stepA]
          split
          · rw [show ({ processQueue cfg { s with timers := s.timers.erase sched } t with
                  now := t } : AlertState).ALERT_QUEUE
                = (processQueue cfg { s with timers := s.timers.erase sched } t).ALERT_QUEUE
                from rfl, processQueue_unconfigured cfg hc]
            exact hq
          · exact hq

/-- C8: a failed delivery only logs — the failed message is recorded in the
error log, the queue, start history and enqueue history are unchanged (never
retried or re-enqueued), and when the remaining queue is non-empty the drain
timer is still scheduled; and with the notification channel unconfigured
every `sendAlert` call logs to the console and leaves the (always empty)
queue untouched. -/
theorem C8_failure_drop_and_fallback (cfg : AlertConfig) (s : AlertState)
    (h : AlertReachable cfg s) :
    (cfg.configured = false →
       s.ALERT_QUEUE = [] ∧
       (∀ t m, sendAlert cfg s t m =
          { s with consoleAlerts := s.consoleAlerts ++ [m] })) ∧
    (∀ t m rest, s.inflightSends = m :: rest →
       (onSendSettled cfg s t false).ALERT_QUEUE = s.ALERT_QUEUE ∧
       (onSendSettled cfg s t false).started = s.started ∧
       (onSendSettled cfg s t false).enqueued = s.enqueued ∧
       (onSendSettled cfg s t false).errorLog = s.errorLog ++ [m] ∧
       (s.ALERT_QUEUE ≠ [] →
          (onSendSettled cfg s t false).timers =
            s.timers ++ [t + cfg.TELEGRAM_INTERVAL_MS])) := by
  constructor
  · intro hc
    constructor
    · obtain ⟨evs, rfl⟩ := h
      exact unconfigured_queue_empty cfg hc initAlert evs rfl
    · intro t m
      unfold sendAlert
      rw [hc]
      simp
  · intro t m rest hin
    unfold onSendSettled
    rw [hin]
    dsimp only
    split
    · next hq =>
        refine ⟨rfl, rfl, rfl, rfl, fun hne => absurd ?_ hne⟩
        simpa using hq
    · exact ⟨rfl, rfl, rfl, rfl, fun _ => rfl⟩

/-- Witness for C8: with Telegram unconfigured, an enqueued message leaves
the queue empty. -/
theorem C8_failure_drop_and_fallback_witness :
    (runA cfgU initAlert [AEv.enqueueMsg "m" 1]).ALERT_QUEUE = [] :=
  ((C8_failure_drop_and_fallback cfgU (runA cfgU initAlert [AEv.enqueueMsg "m" 1])
    ⟨[AEv.enqueueMsg "m" 1], rfl⟩).1 rfl).1

end DefiWatcher
